import Mathlib

/-!
Verification of the agent conversation engine (FIPA-ACL office demo).

Shallow embedding of the Python modules `common/acl.py`, `common/fipa.py`,
`common/llm.py`, `common/history.py` and `common/base.py`.  Python dicts are
modelled as association lists (`List (String × _)`) with Python's
replace-or-append update semantics, JSON values as the inductive `Json`,
machine strings as Lean `String` with explicit ASCII case mapping
(`pyUpper`/`pyLower`, matching Python `str.upper`/`str.lower` on the ASCII
range used by the program), and `raise`/`except` as `Except`.
-/

/-- JSON values as produced by `json.loads`; numbers restricted to integers,
which is all the program ever produces or inspects. -/
inductive Json where
  | null : Json
  | bool : Bool → Json
  | num : Int → Json
  | str : String → Json
  | arr : List Json → Json
  | obj : List (String × Json) → Json

/-- Python `s.upper()` (ASCII range). -/
def pyUpper (s : String) : String := String.mk (s.data.map Char.toUpper)

/-- Python `s.lower()` (ASCII range). -/
def pyLower (s : String) : String := String.mk (s.data.map Char.toLower)

/-- Whitespace characters stripped by Python `str.strip()`. -/
def isPySpace (c : Char) : Bool :=
  c = ' ' || c = '\t' || c = '\n' || c = '\r' || c = '\x0b' || c = '\x0c'

/-- Python `s.strip()`. -/
def pyStrip (s : String) : String :=
  String.mk (((s.data.dropWhile isPySpace).reverse.dropWhile isPySpace).reverse)

/-- Python truthiness for an optional string (`None` and `""` are falsy). -/
def optTruthy : Option String → Bool
  | none => false
  | some s => s ≠ ""

/-- Python `a or b` for strings (`""` is falsy). -/
def pyOrStr (a b : String) : String := if a = "" then b else a

/-- Python `a or b` where `a` is an optional string and `b` a string. -/
def pyOrOptStr (a : Option String) (b : String) : String :=
  match a with
  | none => b
  | some s => if s = "" then b else s

/-- Python `a or b` on two optional strings (falsy `a` yields `b`). -/
def pyOrOpt (a b : Option String) : Option String :=
  if optTruthy a then a else b

/-- Python truthiness of a JSON value. -/
def jsonTruthy : Json → Bool
  | Json.null => false
  | Json.bool b => b
  | Json.num n => n ≠ 0
  | Json.str s => s ≠ ""
  | Json.arr xs => !xs.isEmpty
  | Json.obj kvs => !kvs.isEmpty

/-- Python `d.get(k)` on a dict modelled as an association list. -/
def dictGet {α : Type} : List (String × α) → String → Option α
  | [], _ => none
  | (k1, v) :: t, k => if k1 = k then some v else dictGet t k

/-- Python `d[k] = v`: replace in place, or append a fresh key at the end. -/
def dictSet {α : Type} : List (String × α) → String → α → List (String × α)
  | [], k, v => [(k, v)]
  | (k1, v1) :: t, k, v => if k1 = k then (k, v) :: t else (k1, v1) :: dictSet t k v

/-- Python `d.setdefault(k, v)`. -/
def dictSetdefault {α : Type} (kvs : List (String × α)) (k : String) (v : α) :
    List (String × α) :=
  match dictGet kvs k with
  | some _ => kvs
  | none => dictSet kvs k v

/-- Python `d.pop(k, None)`: drop the entry for key `k`. -/
def dictPop {α : Type} (kvs : List (String × α)) (k : String) : List (String × α) :=
  kvs.filter (fun kv => kv.1 ≠ k)

/-- An optional string as a JSON value (`None` becomes JSON `null`). -/
def optStrJson : Option String → Json
  | none => Json.null
  | some s => Json.str s

/-- Allowed performatives, from `common/acl.py` (`ALLOWED_PERFORMATIVES`). -/
def ALLOWED_PERFORMATIVES : List String :=
  ["REQUEST", "AGREE", "REFUSE", "INFORM", "FAILURE", "CANCEL"]

/-- Canonical envelope, from `common/acl.py` (`class AclMessage`).  Field
validation is performed by `mkAclMessage` / `aclFromJson` below, mirroring the
pydantic validators. -/
structure AclMessage where
  performative : String
  conversation_id : String
  protocol : String
  ontology : String
  language : String
  reply_by : Option String
  sender : Option String
  receiver : Option String
  payload : List (String × Json)

/-- Field validator `_perf_upper_and_allowed` from `common/acl.py`:
uppercase the value and require membership in the allowed set. -/
def perf_upper_and_allowed (v : String) : Except String String :=
  let v_up := pyUpper v
  if v_up ∈ ALLOWED_PERFORMATIVES then Except.ok v_up
  else Except.error ("unsupported performative " ++ v)

/-- Field validator `_conv_required` from `common/acl.py`: the conversation id
must be non-empty and not whitespace-only. -/
def conv_required (v : String) : Except String String :=
  if v = "" then Except.error "conversation_id is required"
  else if pyStrip v = "" then Except.error "conversation_id is required"
  else Except.ok v

/-- Construction of an `AclMessage` (pydantic `AclMessage(...)`): run the two
field validators, store the normalized performative. -/
def mkAclMessage (performative conversation_id protocol ontology language : String)
    (reply_by sender receiver : Option String) (payload : List (String × Json)) :
    Except String AclMessage :=
  match perf_upper_and_allowed performative with
  | Except.error e => Except.error e
  | Except.ok p =>
    match conv_required conversation_id with
    | Except.error e => Except.error e
    | Except.ok c =>
      Except.ok ⟨p, c, protocol, ontology, language, reply_by, sender, receiver, payload⟩

/-- Reply sets from `common/fipa.py` (`_REQUEST_REPLIES`). -/
def REQUEST_REPLIES : List String := ["AGREE", "REFUSE"]

/-- Reply sets from `common/fipa.py` (`_AFTER_AGREE`). -/
def AFTER_AGREE : List String := ["INFORM", "FAILURE"]

/-- Transition rules, from `common/fipa.py` (`is_valid_transition`). -/
def is_valid_transition (incoming_perf : Option String) (outgoing_perf : String) : Bool :=
  let out_up := pyUpper outgoing_perf
  match incoming_perf with
  | none => decide (out_up ∈ ALLOWED_PERFORMATIVES)
  | some inc =>
    let inc_up := pyUpper inc
    if inc_up = "REQUEST" then decide (out_up ∈ REQUEST_REPLIES)
    else if inc_up = "AGREE" then decide (out_up ∈ AFTER_AGREE)
    else decide (out_up ∈ ALLOWED_PERFORMATIVES)

/-- Transition table as worded by the specification (used only to compare the
source function against the spec table in claim C1). -/
def transition_table_spec (incoming : Option String) (outgoing : String) : Bool :=
  match incoming with
  | some "REQUEST" => decide (outgoing ∈ ["AGREE", "REFUSE"])
  | some "AGREE" => decide (outgoing ∈ ["INFORM", "FAILURE"])
  | _ => decide (outgoing ∈ ALLOWED_PERFORMATIVES)

/-- C1: over every pair drawn from the performative vocabulary (incoming also
possibly absent), `is_valid_transition` agrees with the spec transition table:
REQUEST permits exactly AGREE and REFUSE, AGREE permits exactly INFORM and
FAILURE, and an absent or any other incoming performative permits every
member of the allowed set. -/
theorem is_valid_transition_matches_table :
    ((none :: ALLOWED_PERFORMATIVES.map some).all (fun inc =>
      ALLOWED_PERFORMATIVES.all (fun out =>
        is_valid_transition inc out == transition_table_spec inc out))) = true := by
  decide

/-- C2: constructing an `AclMessage` with performative `p` (all other fields
well-formed) fails exactly when the uppercase form of `p` is outside the
allowed set, and on success the stored performative is that uppercase form. -/
theorem acl_construction_performative (p cid proto onto lang : String)
    (rb snd rcv : Option String) (pl : List (String × Json))
    (hc : pyStrip cid ≠ "") :
    ((∃ m, mkAclMessage p cid proto onto lang rb snd rcv pl = Except.ok m) ↔
      pyUpper p ∈ ALLOWED_PERFORMATIVES)
    ∧ (∀ m, mkAclMessage p cid proto onto lang rb snd rcv pl = Except.ok m →
        m.performative = pyUpper p) := by
  have hcid : cid ≠ "" := by
    intro h
    apply hc
    rw [h]
    rfl
  constructor
  · constructor
    · rintro ⟨m, hm⟩
      by_contra hp
      simp [mkAclMessage, perf_upper_and_allowed, hp] at hm
    · intro hp
      exact ⟨⟨pyUpper p, cid, proto, onto, lang, rb, snd, rcv, pl⟩,
        by simp [mkAclMessage, perf_upper_and_allowed, conv_required, hp, hcid, hc]⟩
  · intro m hm
    by_cases hp : pyUpper p ∈ ALLOWED_PERFORMATIVES
    · simp [mkAclMessage, perf_upper_and_allowed, conv_required, hp, hcid, hc] at hm
      rw [← hm]
    · simp [mkAclMessage, perf_upper_and_allowed, hp] at hm

/-- Witness for C2 at the concrete performative "request". -/
theorem acl_construction_performative_witness :
    pyStrip "conv-1" ≠ "" ∧
    (((∃ m, mkAclMessage "request" "conv-1" "fipa-request" "office.demo" "json"
        none none none [] = Except.ok m) ↔
      pyUpper "request" ∈ ALLOWED_PERFORMATIVES)
    ∧ (∀ m, mkAclMessage "request" "conv-1" "fipa-request" "office.demo" "json"
        none none none [] = Except.ok m → m.performative = pyUpper "request")) :=
  ⟨by decide,
   acl_construction_performative "request" "conv-1" "fipa-request" "office.demo"
     "json" none none none [] (by decide)⟩

/-- JSON string escaping used by `json.dumps` (quote and backslash; the
program never emits control characters in keys). -/
def escChar (c : Char) : String :=
  if c = '\"' then "\\\"" else if c = '\\' then "\\\\" else String.mk [c]

/-- Escape a whole string for `json.dumps`. -/
def escapeStr (s : String) : String := String.join (s.data.map escChar)

/-- Render a quoted JSON string literal. -/
def quoteStr (s : String) : String := "\"" ++ escapeStr s ++ "\""

mutual

/-- Python `json.dumps` (with `ensure_ascii=False`) on our JSON model. -/
def Json.dumps : Json → String
  | Json.null => "null"
  | Json.bool true => "true"
  | Json.bool false => "false"
  | Json.num n => toString n
  | Json.str s => quoteStr s
  | Json.arr xs => "[" ++ Json.dumpsArr xs ++ "]"
  | Json.obj kvs => "\x7b" ++ Json.dumpsObj kvs ++ "\x7d"

/-- Comma-joined rendering of a JSON array body. -/
def Json.dumpsArr : List Json → String
  | [] => ""
  | [x] => Json.dumps x
  | x :: y :: t => Json.dumps x ++ ", " ++ Json.dumpsArr (y :: t)

/-- Comma-joined rendering of a JSON object body. -/
def Json.dumpsObj : List (String × Json) → String
  | [] => ""
  | [(k, v)] => quoteStr k ++ ": " ++ Json.dumps v
  | (k, v) :: w :: t => quoteStr k ++ ": " ++ Json.dumps v ++ ", " ++ Json.dumpsObj (w :: t)

end

/-- Pydantic `model_dump()` of an `AclMessage`: all fields, declaration order. -/
def AclMessage.model_dump (m : AclMessage) : List (String × Json) :=
  [("performative", Json.str m.performative),
   ("conversation_id", Json.str m.conversation_id),
   ("protocol", Json.str m.protocol),
   ("ontology", Json.str m.ontology),
   ("language", Json.str m.language),
   ("reply_by", optStrJson m.reply_by),
   ("sender", optStrJson m.sender),
   ("receiver", optStrJson m.receiver),
   ("payload", Json.obj m.payload)]

/-- Flat FIPA metadata of a SPADE message (`msg.metadata`); each key optional.
The legacy hyphenated conversation-id key is kept as a separate field. -/
structure SpadeMeta where
  performative : Option String
  conversation_id : Option String
  conversation_id_legacy : Option String
  protocol : Option String
  ontology : Option String
  language : Option String
  reply_by : Option String

/-- A SPADE transport message.  `bodyRaw` is the body text (`""` when absent);
`bodyJson` is the result of `json.loads(bodyRaw)` when the body parses as
JSON, `none` otherwise (the parse oracle of the shallow embedding). -/
structure SpadeMessage where
  toJid : Option String
  sender : Option String
  bodyRaw : String
  bodyJson : Option Json
  meta : SpadeMeta

/-- Method `AclMessage.to_spade` from `common/acl.py`: JSON body from
`model_dump` (with sender/receiver defaulted in), FIPA metadata alongside,
`reply_by` only when truthy. -/
def AclMessage.to_spade (m : AclMessage) (to_jid sender_jid : String) : SpadeMessage :=
  let body :=
    dictSetdefault
      (dictSetdefault (AclMessage.model_dump m) "sender" (Json.str sender_jid))
      "receiver" (Json.str to_jid)
  { toJid := some to_jid
    sender := some sender_jid
    bodyRaw := Json.dumps (Json.obj body)
    bodyJson := some (Json.obj body)
    meta := {
      performative := some m.performative
      conversation_id := some m.conversation_id
      conversation_id_legacy := none
      protocol := some (pyOrStr m.protocol "fipa-request")
      ontology := some m.ontology
      language := some m.language
      reply_by := if optTruthy m.reply_by then m.reply_by else none } }

/-- Read a required string field (pydantic: a `str` field with no default). -/
def getStrField (kvs : List (String × Json)) (k : String) : Except String String :=
  match dictGet kvs k with
  | some (Json.str s) => Except.ok s
  | some _ => Except.error (k ++ ": string required")
  | none => Except.error (k ++ ": field required")

/-- Read a string field with a default (pydantic: `str` field with default). -/
def getStrFieldD (kvs : List (String × Json)) (k : String) (d : String) :
    Except String String :=
  match dictGet kvs k with
  | some (Json.str s) => Except.ok s
  | some _ => Except.error (k ++ ": string required")
  | none => Except.ok d

/-- Read an optional string field (pydantic: `Optional[str]` with default
`None`). -/
def getOptStrField (kvs : List (String × Json)) (k : String) :
    Except String (Option String) :=
  match dictGet kvs k with
  | some (Json.str s) => Except.ok (some s)
  | some Json.null => Except.ok none
  | some _ => Except.error (k ++ ": string or null required")
  | none => Except.ok none

/-- Read the payload field (pydantic: `Dict[str, Any]` with empty default). -/
def getPayloadField (kvs : List (String × Json)) :
    Except String (List (String × Json)) :=
  match dictGet kvs "payload" with
  | some (Json.obj pl) => Except.ok pl
  | some _ => Except.error "payload: mapping required"
  | none => Except.ok []

/-- Pydantic `AclMessage.model_validate` on a JSON value: requires an object,
reads every field with its type and default, and runs the two field
validators. -/
def aclFromJson : Json → Except String AclMessage
  | Json.obj kvs => do
      let perfRaw ← getStrField kvs "performative"
      let perf ← perf_upper_and_allowed perfRaw
      let convRaw ← getStrField kvs "conversation_id"
      let conv ← conv_required convRaw
      let protocol ← getStrFieldD kvs "protocol" "fipa-request"
      let ontology ← getStrFieldD kvs "ontology" "office.demo"
      let language ← getStrFieldD kvs "language" "json"
      let reply_by ← getOptStrField kvs "reply_by"
      let sender ← getOptStrField kvs "sender"
      let receiver ← getOptStrField kvs "receiver"
      let payload ← getPayloadField kvs
      return ⟨perf, conv, protocol, ontology, language, reply_by, sender, receiver, payload⟩
  | _ => Except.error "input is not an object"

/-- Metadata fields extracted at the top of `AclMessage.from_spade`
(`common/acl.py`): uppercased performative, defaulted protocol/ontology/
language, underscore conversation id winning over the legacy hyphen form. -/
structure MetaFields where
  conv : Option String
  perf : String
  proto : String
  onto : String
  lang : String
  rby : Option String
  snd : Option String
  rcv : Option String

/-- Extraction of `MetaFields` from a SPADE message. -/
def metaFields (msg : SpadeMessage) : MetaFields :=
  { conv := pyOrOpt msg.meta.conversation_id msg.meta.conversation_id_legacy
    perf := pyUpper (pyOrOptStr msg.meta.performative "")
    proto := pyOrOptStr msg.meta.protocol "fipa-request"
    onto := pyOrOptStr msg.meta.ontology "office.demo"
    lang := pyOrOptStr msg.meta.language "json"
    rby := msg.meta.reply_by
    snd := msg.sender
    rcv := msg.toJid }

/-- Mode 1 of `AclMessage.from_spade`, first half: fill fields missing from
the JSON body object from the metadata with `setdefault`, and force a mapping
payload (raw body text otherwise). -/
def from_spade_fixup (msg : SpadeMessage) (obj0 : List (String × Json)) :
    List (String × Json) :=
  let f := metaFields msg
  let o1 := dictSetdefault obj0 "performative" (Json.str f.perf)
  let o2 := dictSetdefault o1 "conversation_id" (optStrJson f.conv)
  let o3 := dictSetdefault o2 "protocol" (Json.str f.proto)
  let o4 := dictSetdefault o3 "ontology" (Json.str f.onto)
  let o5 := dictSetdefault o4 "language" (Json.str f.lang)
  let o6 := dictSetdefault o5 "reply_by" (optStrJson f.rby)
  let o7 := dictSetdefault o6 "sender" (optStrJson f.snd)
  let o8 := dictSetdefault o7 "receiver" (optStrJson f.rcv)
  match dictGet o8 "payload" with
  | some (Json.obj _) => o8
  | some _ => dictSet o8 "payload" (Json.obj [("text", Json.str msg.bodyRaw)])
  | none => dictSet o8 "payload" (Json.obj [("text", Json.str msg.bodyRaw)])

/-- Mode 1 continued: the `model_validate` call on the fixed-up object. -/
def from_spade_try_json (msg : SpadeMessage) : Except String AclMessage :=
  match msg.bodyJson with
  | none => Except.error "body is not JSON"
  | some (Json.obj obj0) => aclFromJson (Json.obj (from_spade_fixup msg obj0))
  | some _ => Except.error "body JSON is not an object"

/-- Mode 2 of `AclMessage.from_spade`: construct from the metadata alone, the
raw body text (when non-empty) going to `payload.text`.  A missing
conversation id or an invalid performative makes the pydantic constructor
raise. -/
def from_spade_fallback (msg : SpadeMessage) : Except String AclMessage :=
  let f := metaFields msg
  match f.conv with
  | none => Except.error "conversation_id is required"
  | some c =>
      mkAclMessage f.perf c f.proto f.onto f.lang f.rby f.snd f.rcv
        (if msg.bodyRaw ≠ "" then [("text", Json.str msg.bodyRaw)] else [])

/-- Method `AclMessage.from_spade` from `common/acl.py`: try the JSON body
first, fall back to the metadata on any failure. -/
def AclMessage.from_spade (msg : SpadeMessage) : Except String AclMessage :=
  if msg.bodyRaw ≠ "" then
    match from_spade_try_json msg with
    | Except.ok m => Except.ok m
    | Except.error _ => from_spade_fallback msg
  else from_spade_fallback msg

/-- Helper: uppercasing fixes every member of the allowed performative set. -/
theorem pyUpper_of_allowed (p : String) (hp : p ∈ ALLOWED_PERFORMATIVES) :
    pyUpper p = p := by
  simp [ALLOWED_PERFORMATIVES] at hp
  rcases hp with h | h | h | h | h | h <;> subst h <;> decide

/-- Helper: the rendering of a JSON object is never the empty string. -/
theorem dumps_obj_ne_empty (kvs : List (String × Json)) :
    Json.dumps (Json.obj kvs) ≠ "" := by
  intro h
  have hlen := congrArg String.length h
  simp [Json.dumps, String.length_append] at hlen
  exact absurd hlen.1.1 (by decide)

/-- Helper: `model_validate` of `model_dump` recovers the message when its
performative is canonical and its conversation id non-blank. -/
theorem aclFromJson_model_dump (m : AclMessage)
    (hp : m.performative ∈ ALLOWED_PERFORMATIVES)
    (hc : pyStrip m.conversation_id ≠ "") :
    aclFromJson (Json.obj (AclMessage.model_dump m)) = Except.ok m := by
  obtain ⟨p1, c1, pr1, on1, la1, rb1, sn1, rc1, pl1⟩ := m
  simp only [] at hp hc
  have hce : c1 ≠ "" := by
    intro h
    apply hc
    rw [h]
    rfl
  cases rb1 <;> cases sn1 <;> cases rc1 <;>
    simp [aclFromJson, AclMessage.model_dump, getStrField, getStrFieldD,
      getOptStrField, getPayloadField, dictGet, optStrJson,
      perf_upper_and_allowed, pyUpper_of_allowed p1 hp, hp,
      conv_required, hce, hc, Bind.bind, Except.bind, pure, Except.pure]

/-- Helper: `setdefault` is the identity when the key is already present. -/
theorem dictSetdefault_present {α : Type} (kvs : List (String × α)) (k : String)
    (v : α) (h : (dictGet kvs k).isSome) : dictSetdefault kvs k v = kvs := by
  unfold dictSetdefault
  cases hg : dictGet kvs k with
  | none => rw [hg] at h; simp at h
  | some w => rfl

/-- Helper: the mode-1 fixup leaves a full `model_dump` object unchanged
(every field key is already present, and the payload is a mapping). -/
theorem from_spade_fixup_model_dump (msg : SpadeMessage) (m : AclMessage)
    : from_spade_fixup msg (AclMessage.model_dump m) = AclMessage.model_dump m := by
  simp only [from_spade_fixup]
  rw [dictSetdefault_present (AclMessage.model_dump m) "performative" _
        (by simp [AclMessage.model_dump, dictGet]),
      dictSetdefault_present (AclMessage.model_dump m) "conversation_id" _
        (by simp [AclMessage.model_dump, dictGet]),
      dictSetdefault_present (AclMessage.model_dump m) "protocol" _
        (by simp [AclMessage.model_dump, dictGet]),
      dictSetdefault_present (AclMessage.model_dump m) "ontology" _
        (by simp [AclMessage.model_dump, dictGet]),
      dictSetdefault_present (AclMessage.model_dump m) "language" _
        (by simp [AclMessage.model_dump, dictGet]),
      dictSetdefault_present (AclMessage.model_dump m) "reply_by" _
        (by simp [AclMessage.model_dump, dictGet]),
      dictSetdefault_present (AclMessage.model_dump m) "sender" _
        (by simp [AclMessage.model_dump, dictGet]),
      dictSetdefault_present (AclMessage.model_dump m) "receiver" _
        (by simp [AclMessage.model_dump, dictGet])]
  have hpl : dictGet (AclMessage.model_dump m) "payload" = some (Json.obj m.payload) := by
    simp [AclMessage.model_dump, dictGet]
  rw [hpl]

/-- C8: serializing a valid envelope to the wire form and parsing it back
(`to_spade` then `from_spade`) succeeds and preserves the performative, the
conversation id and the payload content. -/
theorem to_spade_from_spade_roundtrip (m : AclMessage) (to_jid sender_jid : String)
    (hp : m.performative ∈ ALLOWED_PERFORMATIVES)
    (hc : pyStrip m.conversation_id ≠ "") :
    ∃ m2, AclMessage.from_spade (AclMessage.to_spade m to_jid sender_jid) = Except.ok m2
      ∧ m2.performative = m.performative
      ∧ m2.conversation_id = m.conversation_id
      ∧ m2.payload = m.payload := by
  have hbodyeq : dictSetdefault
      (dictSetdefault (AclMessage.model_dump m) "sender" (Json.str sender_jid))
      "receiver" (Json.str to_jid) = AclMessage.model_dump m := by
    rw [dictSetdefault_present (AclMessage.model_dump m) "sender" _
          (by simp [AclMessage.model_dump, dictGet]),
        dictSetdefault_present (AclMessage.model_dump m) "receiver" _
          (by simp [AclMessage.model_dump, dictGet])]
  have hbj : (AclMessage.to_spade m to_jid sender_jid).bodyJson =
      some (Json.obj (AclMessage.model_dump m)) := by
    show some (Json.obj (dictSetdefault
      (dictSetdefault (AclMessage.model_dump m) "sender" (Json.str sender_jid))
      "receiver" (Json.str to_jid))) = _
    rw [hbodyeq]
  have htry : from_spade_try_json (AclMessage.to_spade m to_jid sender_jid) =
      Except.ok m := by
    unfold from_spade_try_json
    rw [hbj]
    show aclFromJson (Json.obj (from_spade_fixup
      (AclMessage.to_spade m to_jid sender_jid) (AclMessage.model_dump m))) = Except.ok m
    rw [from_spade_fixup_model_dump, aclFromJson_model_dump m hp hc]
  have hraw : (AclMessage.to_spade m to_jid sender_jid).bodyRaw ≠ "" := by
    show Json.dumps (Json.obj _) ≠ ""
    exact dumps_obj_ne_empty _
  refine ⟨m, ?_, rfl, rfl, rfl⟩
  unfold AclMessage.from_spade
  rw [if_pos hraw, htry]

/-- Witness for C8 at a concrete REQUEST envelope. -/
theorem to_spade_from_spade_roundtrip_witness :
    (⟨"REQUEST", "conv-1", "fipa-request", "office.demo", "json",
       none, none, none, [("text", Json.str "hello")]⟩ : AclMessage).performative
        ∈ ALLOWED_PERFORMATIVES ∧
    ∃ m2, AclMessage.from_spade (AclMessage.to_spade
        ⟨"REQUEST", "conv-1", "fipa-request", "office.demo", "json",
         none, none, none, [("text", Json.str "hello")]⟩ "a@x" "b@x") = Except.ok m2
      ∧ m2.performative = "REQUEST"
      ∧ m2.conversation_id = "conv-1"
      ∧ m2.payload = [("text", Json.str "hello")] :=
  ⟨by decide,
   to_spade_from_spade_roundtrip
     ⟨"REQUEST", "conv-1", "fipa-request", "office.demo", "json",
      none, none, none, [("text", Json.str "hello")]⟩ "a@x" "b@x"
     (by decide) (by decide)⟩

/-- Helper: `Char.ofNat` of a valid code point round-trips through `toNat`. -/
theorem charOfNat_toNat (n : Nat) (hv : n.isValidChar) : (Char.ofNat n).toNat = n := by
  rw [Char.ofNat, dif_pos hv]
  simp [Char.ofNatAux, Char.toNat, UInt32.toNat]

/-- Helper: ASCII uppercasing of a character is idempotent. -/
theorem charToUpper_idem (c : Char) : c.toUpper.toUpper = c.toUpper := by
  by_cases h : c.toNat ≥ 97 ∧ c.toNat ≤ 122
  · have e1 : c.toUpper = Char.ofNat (c.toNat - 32) := by
      simp only [Char.toUpper]
      rw [if_pos h]
    have hv : (c.toNat - 32).isValidChar := Or.inl (by omega)
    have h2 : (Char.ofNat (c.toNat - 32)).toNat = c.toNat - 32 := charOfNat_toNat _ hv
    have hn : ¬ ((Char.ofNat (c.toNat - 32)).toNat ≥ 97 ∧
        (Char.ofNat (c.toNat - 32)).toNat ≤ 122) := by
      rw [h2]; omega
    rw [e1]
    simp only [Char.toUpper]
    rw [if_neg hn]
  · have e1 : c.toUpper = c := by
      simp only [Char.toUpper]
      rw [if_neg h]
    rw [e1, e1]

/-- Helper: `pyUpper` is idempotent. -/
theorem pyUpper_idem (s : String) : pyUpper (pyUpper s) = pyUpper s := by
  simp only [pyUpper, List.map_map]
  have : (Char.toUpper ∘ Char.toUpper) = Char.toUpper := by
    funext c
    exact charToUpper_idem c
  rw [this]

/-- C10: on a non-empty body whose JSON mode fails (not JSON, not an object,
or failing envelope validation), `from_spade` does not propagate the failure:
it falls back to the metadata-only construction with the raw body text under
`payload.text`, and it errors exactly when the metadata performative is
outside the allowed set or the metadata conversation id is missing or blank. -/
theorem from_spade_metadata_fallback (msg : SpadeMessage)
    (hbody : msg.bodyRaw ≠ "")
    (hfail : ∀ m, from_spade_try_json msg ≠ Except.ok m) :
    AclMessage.from_spade msg = from_spade_fallback msg
    ∧ ((∃ m, AclMessage.from_spade msg = Except.ok m) ↔
        ((metaFields msg).perf ∈ ALLOWED_PERFORMATIVES ∧
          ∃ c, (metaFields msg).conv = some c ∧ pyStrip c ≠ ""))
    ∧ (∀ m, AclMessage.from_spade msg = Except.ok m →
        m.payload = [("text", Json.str msg.bodyRaw)]) := by
  have hfs : AclMessage.from_spade msg = from_spade_fallback msg := by
    unfold AclMessage.from_spade
    rw [if_pos hbody]
    cases h : from_spade_try_json msg with
    | ok m => exact absurd h (hfail m)
    | error e => rfl
  have hpe : pyUpper (metaFields msg).perf = (metaFields msg).perf := by
    show pyUpper (pyUpper (pyOrOptStr msg.meta.performative "")) = _
    exact pyUpper_idem _
  refine ⟨hfs, ?_, ?_⟩
  · rw [hfs]
    unfold from_spade_fallback
    cases hcv : (metaFields msg).conv with
    | none =>
      simp only []
      rw [hcv]
      simp
    | some c =>
      simp only []
      rw [hcv]
      by_cases hperf : (metaFields msg).perf ∈ ALLOWED_PERFORMATIVES
      · by_cases hstrip : pyStrip c = ""
        · simp [mkAclMessage, perf_upper_and_allowed, conv_required, hpe, hperf,
            hstrip, ite_self]
        · have hcne : c ≠ "" := by
            intro h
            apply hstrip
            rw [h]
            rfl
          simp [mkAclMessage, perf_upper_and_allowed, conv_required, hpe, hperf,
            hstrip, hcne, hbody]
      · simp [mkAclMessage, perf_upper_and_allowed, hpe, hperf]
  · intro m hm
    rw [hfs] at hm
    unfold from_spade_fallback at hm
    simp only [] at hm
    split at hm
    · simp at hm
    · unfold mkAclMessage at hm
      split at hm
      · simp at hm
      · split at hm
        · simp at hm
        · simp only [Except.ok.injEq] at hm
          rw [← hm]
          simp [hbody]

/-- Sample inbound message whose non-empty body is not valid JSON. -/
def sampleBadBodyMsg : SpadeMessage :=
  { toJid := some "a@x"
    sender := some "b@x"
    bodyRaw := "hello"
    bodyJson := none
    meta := {
      performative := some "inform"
      conversation_id := some "c-1"
      conversation_id_legacy := none
      protocol := none
      ontology := none
      language := none
      reply_by := none } }

/-- Witness for C10 at a concrete non-JSON body. -/
theorem from_spade_metadata_fallback_witness :
    sampleBadBodyMsg.bodyRaw ≠ "" ∧
    (AclMessage.from_spade sampleBadBodyMsg = from_spade_fallback sampleBadBodyMsg
    ∧ ((∃ m, AclMessage.from_spade sampleBadBodyMsg = Except.ok m) ↔
        ((metaFields sampleBadBodyMsg).perf ∈ ALLOWED_PERFORMATIVES ∧
          ∃ c, (metaFields sampleBadBodyMsg).conv = some c ∧ pyStrip c ≠ ""))
    ∧ (∀ m, AclMessage.from_spade sampleBadBodyMsg = Except.ok m →
        m.payload = [("text", Json.str sampleBadBodyMsg.bodyRaw)])) :=
  ⟨by decide,
   from_spade_metadata_fallback sampleBadBodyMsg (by decide)
     (fun m h => by simp [from_spade_try_json, sampleBadBodyMsg] at h)⟩

/-- REFUSE reply as constructed at the three fallback sites of
`ai_respond_to_acl` in `common/llm.py`: conversation id, protocol (defaulted)
and ontology carried over from the incoming envelope, language "json",
the given payload. -/
def refuse_with (incoming : AclMessage) (pl : List (String × Json)) : AclMessage :=
  { performative := "REFUSE"
    conversation_id := incoming.conversation_id
    protocol := pyOrStr incoming.protocol "fipa-request"
    ontology := incoming.ontology
    language := "json"
    reply_by := none
    sender := none
    receiver := none
    payload := pl }

/-- Try-block of `ai_respond_to_acl` (`common/llm.py`): patch the plan object
returned by the reasoning backend (default `reply_by`, force the incoming
conversation id / protocol / ontology fallback / language, null out
sender/receiver) and run `AclMessage.model_validate` on it.  A non-mapping
plan raises (`obj.get` on a non-dict), which the source catches in the same
`except` clause. -/
def fixup_plan (nowRB : String) (incoming : AclMessage) (data : Json) :
    Except String AclMessage :=
  match data with
  | Json.obj kvs0 =>
      let kvs1 :=
        match dictGet kvs0 "reply_by" with
        | some v => if jsonTruthy v then kvs0 else dictSet kvs0 "reply_by" (Json.str nowRB)
        | none => dictSet kvs0 "reply_by" (Json.str nowRB)
      let kvs2 := dictSet kvs1 "conversation_id" (Json.str incoming.conversation_id)
      let kvs3 := dictSet kvs2 "protocol" (Json.str (pyOrStr incoming.protocol "fipa-request"))
      let kvs4 := dictSet kvs3 "ontology"
        (match dictGet kvs3 "ontology" with
         | some v => if jsonTruthy v then v else Json.str incoming.ontology
         | none => Json.str incoming.ontology)
      let kvs5 := dictSet kvs4 "language" (Json.str "json")
      let kvs6 := dictSet kvs5 "sender" Json.null
      let kvs7 := dictSet kvs6 "receiver" Json.null
      aclFromJson (Json.obj kvs7)
  | _ => Except.error "plan is not a mapping"

/-- Python `str()` of the JSON value `obj.get("performative")` as interpolated
into the invalid-transition message.  The container renderings approximate
Python `repr`; they are unreachable at the use site because a validated plan
always carries a string performative. -/
def pyStrOptJson : Option Json → String
  | none => "None"
  | some Json.null => "None"
  | some (Json.bool true) => "True"
  | some (Json.bool false) => "False"
  | some (Json.num n) => toString n
  | some (Json.str s) => s
  | some (Json.arr xs) => Json.dumps (Json.arr xs)
  | some (Json.obj kvs) => Json.dumps (Json.obj kvs)

/-- Value of `obj.get("performative")` used in the invalid-transition branch.
The fixups of `fixup_plan` never touch the "performative" key, so reading it
from the raw backend object equals reading it from the mutated one. -/
def plan_performative_raw (data : Json) : Option Json :=
  match data with
  | Json.obj kvs => dictGet kvs "performative"
  | _ => none

/-- Decision core of `ai_respond_to_acl` (`common/llm.py`), given the
already-computed backend response JSON `data` (`resp.json()`, which the
source re-serializes and re-parses — an identity on the JSON tree) and the
`ensure_reply_by(None)` timestamp `nowRB`.  A transport error or timeout
raises out of the function instead (no value is produced). -/
def ai_respond_to_acl (nowRB : String) (incoming : AclMessage) (data : Json) :
    AclMessage :=
  match fixup_plan nowRB incoming data with
  | Except.ok answer =>
      if is_valid_transition (some incoming.performative) answer.performative then answer
      else
        refuse_with incoming
          [("text", Json.str ("Invalid transition " ++ incoming.performative ++ " -> "
            ++ pyStrOptJson (plan_performative_raw data) ++ ", refusing."))]
  | Except.error e =>
      refuse_with incoming [("text", Json.str "Validation error"), ("error", Json.str e)]

/-- C4: a plan that validates but whose performative violates the transition
rules relative to the incoming performative is never sent as-is — the reply
is a REFUSE with an explanatory text payload and the incoming conversation
id preserved. -/
theorem invalid_plan_downgraded_to_refuse (nowRB : String) (incoming : AclMessage)
    (data : Json) (answer : AclMessage)
    (hok : fixup_plan nowRB incoming data = Except.ok answer)
    (hbad : is_valid_transition (some incoming.performative) answer.performative = false) :
    (ai_respond_to_acl nowRB incoming data).performative = "REFUSE"
    ∧ (ai_respond_to_acl nowRB incoming data).conversation_id = incoming.conversation_id
    ∧ (dictGet (ai_respond_to_acl nowRB incoming data).payload "text").isSome = true := by
  simp [ai_respond_to_acl, hok, hbad, refuse_with, dictGet]

/-- Witness for C4: incoming REQUEST, backend plan CANCEL (an invalid
transition). -/
theorem invalid_plan_downgraded_to_refuse_witness :
    fixup_plan "rb" ⟨"REQUEST", "conv-9", "fipa-request", "office.demo", "json",
        none, none, none, []⟩ (Json.obj [("performative", Json.str "CANCEL")]) =
      Except.ok ⟨"CANCEL", "conv-9", "fipa-request", "office.demo", "json",
        some "rb", none, none, []⟩
    ∧ ((ai_respond_to_acl "rb" ⟨"REQUEST", "conv-9", "fipa-request", "office.demo",
          "json", none, none, none, []⟩
          (Json.obj [("performative", Json.str "CANCEL")])).performative = "REFUSE"
      ∧ (ai_respond_to_acl "rb" ⟨"REQUEST", "conv-9", "fipa-request", "office.demo",
          "json", none, none, none, []⟩
          (Json.obj [("performative", Json.str "CANCEL")])).conversation_id = "conv-9"
      ∧ (dictGet (ai_respond_to_acl "rb" ⟨"REQUEST", "conv-9", "fipa-request",
          "office.demo", "json", none, none, none, []⟩
          (Json.obj [("performative", Json.str "CANCEL")])).payload "text").isSome = true) :=
  ⟨rfl,
   invalid_plan_downgraded_to_refuse "rb"
     ⟨"REQUEST", "conv-9", "fipa-request", "office.demo", "json", none, none, none, []⟩
     (Json.obj [("performative", Json.str "CANCEL")])
     ⟨"CANCEL", "conv-9", "fipa-request", "office.demo", "json", some "rb", none, none, []⟩
     rfl rfl⟩

/-- Counterexample to C3: an incoming REQUEST whose backend response fails
validation (an empty JSON object) is answered with REFUSE, not with the
claimed deterministic default plan (which for REQUEST would be AGREE). -/
theorem backend_failure_reply_is_not_default_plan :
    (ai_respond_to_acl "2026-01-01T00:00:00Z"
      ⟨"REQUEST", "conv-1", "fipa-request", "office.demo", "json",
       none, none, none, [("text", Json.str "please")]⟩
      (Json.obj [])).performative = "REFUSE"
    ∧ (ai_respond_to_acl "2026-01-01T00:00:00Z"
      ⟨"REQUEST", "conv-1", "fipa-request", "office.demo", "json",
       none, none, none, [("text", Json.str "please")]⟩
      (Json.obj [])).performative ≠ "AGREE" := by
  decide

/-- C3 as amended: when the backend response fails to parse as a plan or
fails envelope validation, the engine replies with a REFUSE that preserves
the incoming conversation id and carries an explanatory text payload (no
error is surfaced to the peer and no REQUEST→AGREE / AGREE→INFORM default
plan is produced). -/
theorem backend_failure_refuse (nowRB : String) (incoming : AclMessage)
    (data : Json) (e : String)
    (herr : fixup_plan nowRB incoming data = Except.error e) :
    (ai_respond_to_acl nowRB incoming data).performative = "REFUSE"
    ∧ (ai_respond_to_acl nowRB incoming data).conversation_id = incoming.conversation_id
    ∧ (dictGet (ai_respond_to_acl nowRB incoming data).payload "text").isSome = true := by
  simp [ai_respond_to_acl, herr, refuse_with, dictGet]

/-- Witness for the amended C3: an incoming REQUEST with an empty-object
backend response (validation fails: performative missing). -/
theorem backend_failure_refuse_witness :
    fixup_plan "rb" ⟨"REQUEST", "conv-2", "fipa-request", "office.demo", "json",
        none, none, none, []⟩ (Json.obj []) =
      Except.error "performative: field required"
    ∧ ((ai_respond_to_acl "rb" ⟨"REQUEST", "conv-2", "fipa-request", "office.demo",
          "json", none, none, none, []⟩ (Json.obj [])).performative = "REFUSE"
      ∧ (ai_respond_to_acl "rb" ⟨"REQUEST", "conv-2", "fipa-request", "office.demo",
          "json", none, none, none, []⟩ (Json.obj [])).conversation_id = "conv-2"
      ∧ (dictGet (ai_respond_to_acl "rb" ⟨"REQUEST", "conv-2", "fipa-request",
          "office.demo", "json", none, none, none, []⟩
          (Json.obj [])).payload "text").isSome = true) :=
  ⟨rfl,
   backend_failure_refuse "rb"
     ⟨"REQUEST", "conv-2", "fipa-request", "office.demo", "json", none, none, none, []⟩
     (Json.obj []) "performative: field required" rfl⟩

/-- History entry direction (`common/history.py`). -/
inductive Direction where
  | IN : Direction
  | OUT : Direction

/-- One history entry: `(direction, AclMessage, peer_jid)`. -/
def HistEntry : Type := Direction × AclMessage × String

/-- Default history capacity (`_default_limit` in `common/history.py` with no
environment override: `max(1, int("20")) = 20`). -/
def ACL_HISTORY_LIMIT : Nat := 20

/-- CPython `deque(maxlen=N).append(x)`: append right, evict left on
overflow.  On the reachable states (length at most `N`) the drop removes at
most one element. -/
def dequePush {α : Type} (maxlen : Nat) (l : List α) (x : α) : List α :=
  let l2 := l ++ [x]
  if l2.length ≤ maxlen then l2 else l2.drop (l2.length - maxlen)

/-- Function `record` of `common/history.py` (capacity as a parameter): fetch
the per-agent deque (`defaultdict` creates an empty one) and append.  Note:
the module text as committed fails to parse (a dedented `logger` assignment
inside `_default_limit`, and backslash-escaped docstring quotes inside
`record` itself), so at runtime the import raises and every caller falls
back to a no-op stub; this definition models the evidently intended logic,
under which claim C6 is assessed. -/
def record (limit : Nat) (store : List (String × List HistEntry))
    (agent_name : String) (entry : HistEntry) : List (String × List HistEntry) :=
  let buf := match dictGet store agent_name with | some l => l | none => []
  dictSet store agent_name (dequePush limit buf entry)

/-- Python negative-tolerant list slice `data[i:]`. -/
def pySliceFrom {α : Type} (i : Int) (data : List α) : List α :=
  if 0 ≤ i then data.drop i.toNat else data.drop (data.length - (-i).toNat)

/-- Function `recent` of `common/history.py`: the stored entries for an
agent, the last `limit` of them when a limit is given (`data[-limit:]`,
so a limit of 0 slices from index `-0 = 0`, i.e. keeps everything).  Note:
the module text as committed fails to parse (see `record`), so this function
never exists at runtime; this definition models the evidently intended
logic, under which claim C9 is assessed. -/
def recent (store : List (String × List HistEntry)) (agent_name : String)
    (limit : Option Int) : List HistEntry :=
  match dictGet store agent_name with
  | none => []
  | some buf =>
    if buf.isEmpty then []
    else
      match limit with
      | none => buf
      | some l => pySliceFrom (-l) buf

/-- Function `recent_thread` of `common/history.py`: entries filtered to one
conversation id, again sliced with `items[-limit:]`.  Subject to the same
parse failure of the module as `record` and `recent`; modelled as evidently
intended. -/
def recent_thread (store : List (String × List HistEntry)) (agent_name : String)
    (conversation_id : String) (limit : Option Int) : List HistEntry :=
  let items := (match dictGet store agent_name with | some l => l | none => []).filter
    (fun e => pyOrStr e.2.1.conversation_id "" = conversation_id)
  match limit with
  | none => items
  | some l => pySliceFrom (-l) items

/-- Helper: `dequePush` always drops down to the last `maxlen` elements. -/
theorem dequePush_eq {α : Type} (N : Nat) (l : List α) (x : α) :
    dequePush N l x = (l ++ [x]).drop ((l ++ [x]).length - N) := by
  unfold dequePush
  by_cases h : (l ++ [x]).length ≤ N
  · rw [if_pos h, Nat.sub_eq_zero_of_le h, List.drop_zero]
  · rw [if_neg h]

/-- Helper: folding `dequePush` keeps exactly the trailing `N` elements. -/
theorem foldl_dequePush {α : Type} (N : Nat) (es L : List α) :
    es.foldl (dequePush N) (L.drop (L.length - N))
      = (L ++ es).drop ((L ++ es).length - N) := by
  induction es generalizing L with
  | nil => simp
  | cons x t ih =>
    rw [List.foldl_cons]
    have hstep : dequePush N (L.drop (L.length - N)) x
        = (L ++ [x]).drop ((L ++ [x]).length - N) := by
      rw [dequePush_eq]
      by_cases h : L.length ≤ N
      · rw [Nat.sub_eq_zero_of_le h, List.drop_zero]
      · push_neg at h
        have hC : (L.drop (L.length - N)).length = N := by
          rw [List.length_drop]; omega
        have hsplit : L ++ [x] = L.take (L.length - N) ++ (L.drop (L.length - N) ++ [x]) := by
          rw [← List.append_assoc, List.take_append_drop]
        have htk : (L.take (L.length - N)).length = L.length - N := by
          rw [List.length_take]; omega
        have hidx : (L ++ [x]).length - N = (L.take (L.length - N)).length + 1 := by
          rw [htk, List.length_append]; simp; omega
        have hidx2 : (L.drop (L.length - N) ++ [x]).length - N = 1 := by
          rw [List.length_append, hC]; simp
        rw [hidx2]
        conv_rhs => rw [hidx, hsplit]
        rw [List.drop_append 1]
    rw [hstep]
    have := ih (L ++ [x])
    rw [this]
    simp

/-- Helper: recording repeatedly under one key keeps a single-entry store. -/
theorem recordAll_single (limit : Nat) (agent : String) (t : List HistEntry)
    (l0 : List HistEntry) :
    t.foldl (fun st e => record limit st agent e) [(agent, l0)]
      = [(agent, t.foldl (dequePush limit) l0)] := by
  induction t generalizing l0 with
  | nil => rfl
  | cons e t2 ih =>
    rw [List.foldl_cons, List.foldl_cons]
    have hrec : record limit [(agent, l0)] agent e = [(agent, dequePush limit l0 e)] := by
      simp [record, dictGet, dictSet]
    rw [hrec, ih]

/-- C6: pushing `N + k` entries (`k > 0`) for one key into an empty context
buffer of capacity `N` leaves exactly the last `N` pushed entries for that
key, in push order (oldest first).  This is the claimed behaviour of the
intended `record` logic; the committed `common/history.py` does not parse,
so in the running program the buffer never operates at all (the code bug
recorded for this claim). -/
theorem context_buffer_keeps_last_N (N k : Nat) (agent : String)
    (entries : List HistEntry) (hlen : entries.length = N + k) (hk : 0 < k) :
    dictGet (entries.foldl (fun st e => record N st agent e) []) agent
      = some (entries.drop k) := by
  cases entries with
  | nil => simp at hlen; omega
  | cons e t =>
    rw [List.foldl_cons]
    have hrec0 : record N [] agent e = [(agent, dequePush N [] e)] := by
      simp [record, dictGet, dictSet]
    rw [hrec0, recordAll_single]
    have hfold : t.foldl (dequePush N) (dequePush N [] e) = (e :: t).drop ((e :: t).length - N) := by
      have heq : dequePush N [] e = ([e] : List HistEntry).drop (([e] : List HistEntry).length - N) := by
        rw [dequePush_eq]
        simp
      rw [heq]
      have := foldl_dequePush N t [e]
      rw [this]
      simp
    rw [hfold]
    have : (e :: t).length - N = k := by omega
    rw [this]
    simp [dictGet]

/-- Witness for C6: capacity 2, three pushes, last two remain in order. -/
theorem context_buffer_keeps_last_N_witness :
    ([(Direction.IN, ⟨"REQUEST", "c1", "fipa-request", "office.demo", "json",
        none, none, none, [("text", Json.str "one")]⟩, "p@x"),
      (Direction.OUT, ⟨"AGREE", "c1", "fipa-request", "office.demo", "json",
        none, none, none, [("text", Json.str "two")]⟩, "p@x"),
      (Direction.IN, ⟨"INFORM", "c1", "fipa-request", "office.demo", "json",
        none, none, none, [("text", Json.str "three")]⟩, "p@x")] :
      List HistEntry).length = 2 + 1
    ∧ 0 < 1
    ∧ dictGet
        (([(Direction.IN, ⟨"REQUEST", "c1", "fipa-request", "office.demo", "json",
            none, none, none, [("text", Json.str "one")]⟩, "p@x"),
          (Direction.OUT, ⟨"AGREE", "c1", "fipa-request", "office.demo", "json",
            none, none, none, [("text", Json.str "two")]⟩, "p@x"),
          (Direction.IN, ⟨"INFORM", "c1", "fipa-request", "office.demo", "json",
            none, none, none, [("text", Json.str "three")]⟩, "p@x")] :
          List HistEntry).foldl (fun st e => record 2 st "a" e) []) "a"
      = some
        [(Direction.OUT, ⟨"AGREE", "c1", "fipa-request", "office.demo", "json",
            none, none, none, [("text", Json.str "two")]⟩, "p@x"),
         (Direction.IN, ⟨"INFORM", "c1", "fipa-request", "office.demo", "json",
            none, none, none, [("text", Json.str "three")]⟩, "p@x")] :=
  ⟨rfl, by decide,
   context_buffer_keeps_last_N 2 1 "a"
     [(Direction.IN, ⟨"REQUEST", "c1", "fipa-request", "office.demo", "json",
        none, none, none, [("text", Json.str "one")]⟩, "p@x"),
      (Direction.OUT, ⟨"AGREE", "c1", "fipa-request", "office.demo", "json",
        none, none, none, [("text", Json.str "two")]⟩, "p@x"),
      (Direction.IN, ⟨"INFORM", "c1", "fipa-request", "office.demo", "json",
        none, none, none, [("text", Json.str "three")]⟩, "p@x")]
     rfl (by decide)⟩

/-- C9: an explicit limit of 0 returns the full stored history (same result
as passing no limit, hence non-empty whenever the stored history is), both
for `recent` and for `recent_thread`; a limit caps the result only when it is
positive, in which case it keeps the trailing `limit` entries.  This holds of
the intended `recent`/`recent_thread` logic; the committed module does not
parse, so the functions are never importable in the running program (the
code bug recorded for this claim). -/
theorem recent_limit_zero (store : List (String × List HistEntry))
    (agent cid : String) :
    recent store agent (some 0) = recent store agent none
    ∧ (recent store agent none ≠ [] → recent store agent (some 0) ≠ [])
    ∧ (∀ l : Int, 0 < l →
        recent store agent (some l)
          = (recent store agent none).drop ((recent store agent none).length - l.toNat))
    ∧ recent_thread store agent cid (some 0) = recent_thread store agent cid none := by
  have h1 : recent store agent (some 0) = recent store agent none := by
    unfold recent
    cases dictGet store agent with
    | none => rfl
    | some buf =>
      by_cases hb : buf.isEmpty
      · simp [hb]
      · simp [hb, pySliceFrom]
  refine ⟨h1, ?_, ?_, ?_⟩
  · intro h
    rw [h1]
    exact h
  · intro l hl
    have hneg : ¬ ((0 : Int) ≤ -l) := by omega
    unfold recent
    cases dictGet store agent with
    | none => simp
    | some buf =>
      by_cases hb : buf.isEmpty
      · simp [hb]
      · simp [hb, pySliceFrom, hneg]
  · unfold recent_thread
    simp [pySliceFrom]

/-- Witness for C9 on a two-entry store, also applying the positive-limit cap
at limit 1. -/
theorem recent_limit_zero_witness :
    recent [("a", [(Direction.IN, ⟨"REQUEST", "c1", "fipa-request", "office.demo",
        "json", none, none, none, []⟩, "p@x"),
      (Direction.OUT, ⟨"AGREE", "c1", "fipa-request", "office.demo",
        "json", none, none, none, []⟩, "p@x")])] "a" (some 0)
      = recent [("a", [(Direction.IN, ⟨"REQUEST", "c1", "fipa-request", "office.demo",
        "json", none, none, none, []⟩, "p@x"),
      (Direction.OUT, ⟨"AGREE", "c1", "fipa-request", "office.demo",
        "json", none, none, none, []⟩, "p@x")])] "a" none
    ∧ recent [("a", [(Direction.IN, ⟨"REQUEST", "c1", "fipa-request", "office.demo",
        "json", none, none, none, []⟩, "p@x"),
      (Direction.OUT, ⟨"AGREE", "c1", "fipa-request", "office.demo",
        "json", none, none, none, []⟩, "p@x")])] "a" (some 1)
      = (recent [("a", [(Direction.IN, ⟨"REQUEST", "c1", "fipa-request", "office.demo",
        "json", none, none, none, []⟩, "p@x"),
      (Direction.OUT, ⟨"AGREE", "c1", "fipa-request", "office.demo",
        "json", none, none, none, []⟩, "p@x")])] "a" none).drop
        ((recent [("a", [(Direction.IN, ⟨"REQUEST", "c1", "fipa-request", "office.demo",
        "json", none, none, none, []⟩, "p@x"),
      (Direction.OUT, ⟨"AGREE", "c1", "fipa-request", "office.demo",
        "json", none, none, none, []⟩, "p@x")])] "a" none).length - (1 : Int).toNat) :=
  ⟨(recent_limit_zero [("a", [(Direction.IN, ⟨"REQUEST", "c1", "fipa-request",
      "office.demo", "json", none, none, none, []⟩, "p@x"),
      (Direction.OUT, ⟨"AGREE", "c1", "fipa-request", "office.demo",
        "json", none, none, none, []⟩, "p@x")])] "a" "c1").1,
   (recent_limit_zero [("a", [(Direction.IN, ⟨"REQUEST", "c1", "fipa-request",
      "office.demo", "json", none, none, none, []⟩, "p@x"),
      (Direction.OUT, ⟨"AGREE", "c1", "fipa-request", "office.demo",
        "json", none, none, none, []⟩, "p@x")])] "a" "c1").2.2.1 1 (by decide)⟩

/-- Lexicographic (code-point) comparison of character lists, the order
Python uses for `str < str`. -/
def charListLt : List Char → List Char → Bool
  | [], [] => false
  | [], _ :: _ => true
  | _ :: _, [] => false
  | a :: as2, b :: bs => if a < b then true else if b < a then false else charListLt as2 bs

/-- Python `a < b` on strings. -/
def strLt (a b : String) : Bool := charListLt a.data b.data

/-- Python `a <= b` on strings. -/
def strLe (a b : String) : Bool := strLt a b || decide (a = b)

/-- Helper: trichotomy for the lexicographic character-list order. -/
theorem charListLt_trichotomy (a b : List Char) :
    charListLt a b = true ∨ a = b ∨ charListLt b a = true := by
  induction a generalizing b with
  | nil => cases b with
    | nil => right; left; rfl
    | cons y t => left; rfl
  | cons x s ih =>
    cases b with
    | nil => right; right; rfl
    | cons y t =>
      rcases lt_trichotomy x y with h | h | h
      · left
        simp [charListLt, h]
      · subst h
        rcases ih t with h2 | h2 | h2
        · left
          simp [charListLt, h2]
        · right; left
          rw [h2]
        · right; right
          simp [charListLt, h2]
      · right; right
        simp [charListLt, h]

/-- Helper: transitivity for the lexicographic character-list order. -/
theorem charListLt_trans (a b c : List Char) (h1 : charListLt a b = true)
    (h2 : charListLt b c = true) : charListLt a c = true := by
  induction a generalizing b c with
  | nil =>
    cases c with
    | nil =>
      cases b with
      | nil => exact h1
      | cons y t => simp [charListLt] at h2
    | cons z u => rfl
  | cons x s ih =>
    cases b with
    | nil => simp [charListLt] at h1
    | cons y t =>
      cases c with
      | nil => simp [charListLt] at h2
      | cons z u =>
        simp only [charListLt] at h1 h2 ⊢
        by_cases hxy : x < y
        · by_cases hyz : y < z
          · have hxz : x < z := lt_trans hxy hyz
            simp [hxz]
          · by_cases hzy : z < y
            · simp [hyz, hzy] at h2
            · have hyez : y = z := le_antisymm (not_lt.mp hzy) (not_lt.mp hyz)
              subst hyez
              simp [hxy]
        · by_cases hyx : y < x
          · simp [hxy, hyx] at h1
          · have hxey : x = y := le_antisymm (not_lt.mp hyx) (not_lt.mp hxy)
            subst hxey
            simp [lt_irrefl] at h1
            by_cases hxz : x < z
            · simp [hxz]
            · by_cases hzx : z < x
              · simp [hxz, hzx] at h2
              · have : x = z := le_antisymm (not_lt.mp hzx) (not_lt.mp hxz)
                subst this
                simp [lt_irrefl] at h2 ⊢
                exact ih t u h1 h2

/-- Helper: `strLe` is total. -/
theorem strLe_total (a b : String) : (strLe a b || strLe b a) = true := by
  rcases charListLt_trichotomy a.data b.data with h | h | h
  · simp [strLe, strLt, h]
  · have : a = b := by
      cases a
      cases b
      simp at h
      rw [h]
    subst this
    simp [strLe]
  · simp [strLe, strLt, h]

/-- Helper: `strLe` is transitive. -/
theorem strLe_trans (a b c : String) (h1 : strLe a b = true) (h2 : strLe b c = true) :
    strLe a c = true := by
  simp only [strLe, Bool.or_eq_true, decide_eq_true_eq] at h1 h2 ⊢
  rcases h1 with h1 | h1
  · rcases h2 with h2 | h2
    · left
      exact charListLt_trans _ _ _ h1 h2
    · subst h2
      left
      exact h1
  · subst h1
    exact h2

/-- Characters matched by the `[a-z0-9]` class of `_score_text_overlap`. -/
def isTokenChar (c : Char) : Bool :=
  ('a' ≤ c && c ≤ 'z') || ('0' ≤ c && c ≤ '9')

/-- Maximal runs of token characters (accumulator holds the current run
reversed), as `re.findall` with a greedy `[a-z0-9]{3,}` produces them before
the length cut. -/
def runsAux : List Char → List Char → List (List Char)
  | [], cur => if cur.isEmpty then [] else [cur.reverse]
  | c :: t, cur =>
    if isTokenChar c then runsAux t (c :: cur)
    else if cur.isEmpty then runsAux t [] else cur.reverse :: runsAux t []

/-- Tokenisation of `_score_text_overlap` (`common/base.py`): lowercase,
maximal alphanumeric runs of length at least 3. -/
def pyTokens (s : String) : List String :=
  ((runsAux (pyLower s).data []).filter (fun r => 3 ≤ r.length)).map
    (fun r => String.mk r)

/-- Static method `_score_text_overlap` (`common/base.py`): the size of the
intersection of the two token sets. -/
def score_text_overlap (prompt persona : String) : Nat :=
  (((pyTokens prompt).dedup).filter (fun t => t ∈ pyTokens persona)).length

/-- Registry entry fields relevant to routing (`common/base.py:285-294`):
the free-text `character` persona, the agent `class` name, and the declared
`role` tag.  The router's scoring reads `info.get("character")` and
`info.get("class")` only; `role` is registered but never consulted there. -/
structure PeerInfo where
  character : String
  className : String
  role : String

/-- Persona text actually scored for a candidate (`common/base.py:269`):
`f"{character} {class}"`. -/
def persona_of (info : PeerInfo) : String :=
  info.character ++ " " ++ info.className

/-- Persona text as worded by the specification for claim C5: the
concatenation of the capability description and the role tag.  Defined only
to compare the source scoring against the claim. -/
def persona_spec (info : PeerInfo) : String :=
  info.character ++ " " ++ info.role

/-- Candidate set of `choose_agent_by_character`: registry entries minus self
(unless included), restricted to a truthy allow-list. -/
def candidates_of (registry : List (String × PeerInfo)) (my_alias : String)
    (include_self : Bool) (allowed : Option (List String)) :
    List (String × PeerInfo) :=
  registry.filter (fun ai =>
    (include_self || ai.1 ≠ my_alias)
    && (match allowed with
        | some al => if al.isEmpty then true else decide (ai.1 ∈ al)
        | none => true))

/-- Sort key order of `scored.sort(key=lambda t: (-t[0], t[1]))`: higher
score first, then alias ascending. -/
def scoreLe (x y : Nat × String) : Bool :=
  decide (y.1 < x.1) || (decide (x.1 = y.1) && strLe x.2 y.2)

/-- Ordered insert for the stable insertion sort below. -/
def insertLe {α : Type} (le : α → α → Bool) (x : α) : List α → List α
  | [] => [x]
  | y :: t => if le x y then x :: y :: t else y :: insertLe le x t

/-- Stable sort by a boolean total preorder, standing in for Python's stable
`list.sort` (any stable sort computes the same list). -/
def sortLe {α : Type} (le : α → α → Bool) : List α → List α
  | [] => []
  | x :: t => insertLe le x (sortLe le t)

/-- Helper: membership through `insertLe`. -/
theorem insertLe_mem {α : Type} (le : α → α → Bool) (x : α) (l : List α) (y : α) :
    y ∈ insertLe le x l ↔ y = x ∨ y ∈ l := by
  induction l with
  | nil => simp [insertLe]
  | cons z t ih =>
    by_cases h : le x z
    · simp [insertLe, h]
    · simp [insertLe, h, ih]
      tauto

/-- Helper: membership through `sortLe`. -/
theorem sortLe_mem {α : Type} (le : α → α → Bool) (l : List α) (y : α) :
    y ∈ sortLe le l ↔ y ∈ l := by
  induction l with
  | nil => simp [sortLe]
  | cons x t ih =>
    simp [sortLe, insertLe_mem, ih]

/-- Helper: `sortLe` returns the empty list only on the empty list. -/
theorem sortLe_eq_nil_iff {α : Type} (le : α → α → Bool) (l : List α) :
    sortLe le l = [] ↔ l = [] := by
  cases l with
  | nil => simp [sortLe]
  | cons x t =>
    simp only [sortLe]
    constructor
    · intro h
      have hx : x ∈ insertLe le x (sortLe le t) := (insertLe_mem le x _ x).mpr (Or.inl rfl)
      rw [h] at hx
      simp at hx
    · intro h
      exact absurd h (by simp)

/-- Helper: `insertLe` preserves sortedness for a transitive total order. -/
theorem insertLe_pairwise {α : Type} (le : α → α → Bool)
    (htrans : ∀ a b c, le a b = true → le b c = true → le a c = true)
    (htotal : ∀ a b, (le a b || le b a) = true)
    (x : α) (l : List α) (h : l.Pairwise (fun a b => le a b = true)) :
    (insertLe le x l).Pairwise (fun a b => le a b = true) := by
  induction l with
  | nil => simp [insertLe]
  | cons y t ih =>
    rcases List.pairwise_cons.mp h with ⟨hy, ht⟩
    by_cases hxy : le x y
    · rw [insertLe, if_pos hxy]
      refine List.pairwise_cons.mpr ⟨?_, h⟩
      intro z hz
      rcases List.mem_cons.mp hz with h2 | h2
      · rw [h2]; exact hxy
      · exact htrans x y z hxy (hy z h2)
    · rw [insertLe, if_neg hxy]
      refine List.pairwise_cons.mpr ⟨?_, ih ht⟩
      intro z hz
      rcases (insertLe_mem le x t z).mp hz with h2 | h2
      · rw [h2]
        rcases Bool.or_eq_true _ _ |>.mp (htotal x y) with h3 | h3
        · exact absurd h3 hxy
        · exact h3
      · exact hy z h2

/-- Helper: `sortLe` sorts for a transitive total order. -/
theorem sortLe_pairwise {α : Type} (le : α → α → Bool)
    (htrans : ∀ a b c, le a b = true → le b c = true → le a c = true)
    (htotal : ∀ a b, (le a b || le b a) = true) (l : List α) :
    (sortLe le l).Pairwise (fun a b => le a b = true) := by
  induction l with
  | nil => simp [sortLe]
  | cons x t ih => exact insertLe_pairwise le htrans htotal x (sortLe le t) ih

/-- Method `choose_agent_by_character` (`common/base.py`) on the heuristic
path (no reasoning backend, so `pick_agent` is absent): score all candidates,
sort stably by descending score then alias, return the head alias. -/
def choose_agent_by_character (registry : List (String × PeerInfo))
    (my_alias : String) (include_self : Bool) (allowed : Option (List String))
    (prompt : String) : Option String :=
  if registry.isEmpty then none
  else
    let candidates := candidates_of registry my_alias include_self allowed
    if candidates.isEmpty then none
    else
      let scored := candidates.map
        (fun ai => (score_text_overlap prompt (persona_of ai.2), ai.1))
      match (sortLe scoreLe scored).head? with
      | some best => some best.2
      | none => none

/-- Router as worded by claim C5 (specification text): identical to
`choose_agent_by_character` except that each candidate is scored against the
concatenation of its capability description and role tag (`persona_spec`).
Defined only to compare the source behaviour with the claim. -/
def choose_agent_by_character_spec (registry : List (String × PeerInfo))
    (my_alias : String) (include_self : Bool) (allowed : Option (List String))
    (prompt : String) : Option String :=
  if registry.isEmpty then none
  else
    let candidates := candidates_of registry my_alias include_self allowed
    if candidates.isEmpty then none
    else
      let scored := candidates.map
        (fun ai => (score_text_overlap prompt (persona_spec ai.2), ai.1))
      match (sortLe scoreLe scored).head? with
      | some best => some best.2
      | none => none

/-- Helper: `scoreLe` is total. -/
theorem scoreLe_total (x y : Nat × String) : (scoreLe x y || scoreLe y x) = true := by
  simp only [scoreLe, Bool.or_eq_true, Bool.and_eq_true, decide_eq_true_eq]
  rcases lt_trichotomy x.1 y.1 with h | h | h
  · tauto
  · rcases Bool.or_eq_true _ _ |>.mp (strLe_total x.2 y.2) with h2 | h2 <;> tauto
  · tauto

/-- Helper: `scoreLe` is transitive. -/
theorem scoreLe_trans (x y z : Nat × String) (h1 : scoreLe x y = true)
    (h2 : scoreLe y z = true) : scoreLe x z = true := by
  simp only [scoreLe, Bool.or_eq_true, Bool.and_eq_true, decide_eq_true_eq] at h1 h2 ⊢
  rcases h1 with h1 | ⟨h1a, h1b⟩
  · rcases h2 with h2 | ⟨h2a, h2b⟩
    · left; omega
    · left; omega
  · rcases h2 with h2 | ⟨h2a, h2b⟩
    · left; omega
    · right
      exact ⟨by omega, strLe_trans _ _ _ h1b h2b⟩

/-- Helper: `scoreLe` is reflexive. -/
theorem scoreLe_refl (x : Nat × String) : scoreLe x x = true := by
  simp [scoreLe, strLe]

/-- C5 as amended: the backend-free capability router is a pure function
(identical inputs give identical results); it returns `none` exactly when
the candidate set is empty, and any returned alias belongs to a candidate
whose score — shared lowercase alphanumeric tokens of length at least 3
between the need text and the concatenation of the capability description
and the agent class name (`persona_of`; the declared role tag is never
consulted) — is maximal, ties broken by lexically smallest alias. -/
theorem capability_router_best (registry : List (String × PeerInfo))
    (my_alias : String) (include_self : Bool) (allowed : Option (List String))
    (prompt : String) :
    choose_agent_by_character registry my_alias include_self allowed prompt
      = choose_agent_by_character registry my_alias include_self allowed prompt
    ∧ (choose_agent_by_character registry my_alias include_self allowed prompt = none
        ↔ candidates_of registry my_alias include_self allowed = [])
    ∧ (∀ a, choose_agent_by_character registry my_alias include_self allowed prompt
          = some a →
        ∃ info, (a, info) ∈ candidates_of registry my_alias include_self allowed
          ∧ ∀ b binfo,
              (b, binfo) ∈ candidates_of registry my_alias include_self allowed →
              (score_text_overlap prompt (persona_of binfo)
                  < score_text_overlap prompt (persona_of info)
                ∨ (score_text_overlap prompt (persona_of info)
                    = score_text_overlap prompt (persona_of binfo)
                  ∧ strLe a b = true))) := by
  refine ⟨rfl, ?_, ?_⟩
  · by_cases hr : registry.isEmpty
    · have hreg : registry = [] := List.isEmpty_iff.mp hr
      subst hreg
      simp [choose_agent_by_character, candidates_of]
    · by_cases hcand : (candidates_of registry my_alias include_self allowed).isEmpty
      · have hc0 : candidates_of registry my_alias include_self allowed = [] :=
          List.isEmpty_iff.mp hcand
        simp [choose_agent_by_character, hr, hcand, hc0]
      · have hc0 : candidates_of registry my_alias include_self allowed ≠ [] := by
          intro h
          rw [h] at hcand
          simp at hcand
        have hne : (sortLe scoreLe
            ((candidates_of registry my_alias include_self allowed).map
              (fun ai => (score_text_overlap prompt (persona_of ai.2), ai.1)))) ≠ [] := by
          intro h
          rw [sortLe_eq_nil_iff, List.map_eq_nil_iff] at h
          exact hc0 h
        obtain ⟨best, rest, hms⟩ := List.exists_cons_of_ne_nil hne
        simp [choose_agent_by_character, hr, hcand, hms, hc0]
  · intro a ha
    by_cases hr : registry.isEmpty
    · simp [choose_agent_by_character, hr] at ha
    · by_cases hcand : (candidates_of registry my_alias include_self allowed).isEmpty
      · simp [choose_agent_by_character, hr, hcand] at ha
      · cases hms : (sortLe scoreLe
            ((candidates_of registry my_alias include_self allowed).map
              (fun ai => (score_text_overlap prompt (persona_of ai.2), ai.1)))) with
        | nil => simp [choose_agent_by_character, hr, hcand, hms] at ha
        | cons best rest =>
          simp [choose_agent_by_character, hr, hcand, hms] at ha
          have hmem : best ∈ (candidates_of registry my_alias include_self allowed).map
              (fun ai => (score_text_overlap prompt (persona_of ai.2), ai.1)) := by
            have hin : best ∈ sortLe scoreLe
                ((candidates_of registry my_alias include_self allowed).map
                  (fun ai => (score_text_overlap prompt (persona_of ai.2), ai.1))) := by
              rw [hms]
              exact List.mem_cons_self _ _
            exact (sortLe_mem _ _ _).mp hin
          obtain ⟨cand, hcandmem, hcandeq⟩ := List.mem_map.mp hmem
          have hbest1 : best.1 = score_text_overlap prompt (persona_of cand.2) := by
            rw [← hcandeq]
          have ha1 : cand.1 = a := by
            rw [← ha, ← hcandeq]
          refine ⟨cand.2, ?_, ?_⟩
          · rw [← ha1]
            exact hcandmem
          · intro b binfo hb
            have hbmem : (score_text_overlap prompt (persona_of binfo), b)
                ∈ (candidates_of registry my_alias include_self allowed).map
                  (fun ai => (score_text_overlap prompt (persona_of ai.2), ai.1)) :=
              List.mem_map.mpr ⟨(b, binfo), hb, rfl⟩
            have hbms : (score_text_overlap prompt (persona_of binfo), b)
                ∈ best :: rest := by
              rw [← hms]
              exact (sortLe_mem _ _ _).mpr hbmem
            have hle : scoreLe best (score_text_overlap prompt (persona_of binfo), b)
                = true := by
              rcases List.mem_cons.mp hbms with h | h
              · rw [← h]
                exact scoreLe_refl _
              · have hpair := sortLe_pairwise scoreLe scoreLe_trans scoreLe_total
                  ((candidates_of registry my_alias include_self allowed).map
                    (fun ai => (score_text_overlap prompt (persona_of ai.2), ai.1)))
                rw [hms] at hpair
                exact (List.pairwise_cons.mp hpair).1 _ h
            simp only [scoreLe, Bool.or_eq_true, Bool.and_eq_true,
              decide_eq_true_eq] at hle
            rcases hle with h | ⟨h1, h2⟩
            · left
              rw [← hbest1]
              exact h
            · right
              constructor
              · rw [← hbest1]
                exact h1
              · rw [← ha]
                exact h2

/-- Witness for C5: a two-candidate registry where the bread-baking provider
out-scores the map explorer on a bread order. -/
theorem capability_router_best_witness :
    choose_agent_by_character
      [("baker", ⟨"bakes fresh bread rolls", "ProviderAgent", "provider"⟩),
       ("scout", ⟨"explores maps", "ExplorerAgent", "generic"⟩)]
      "coordinator" false none "please order bread rolls" = some "baker"
    ∧ ∃ info, ("baker", info) ∈ candidates_of
        [("baker", ⟨"bakes fresh bread rolls", "ProviderAgent", "provider"⟩),
         ("scout", ⟨"explores maps", "ExplorerAgent", "generic"⟩)] "coordinator" false none
      ∧ ∀ b binfo,
          (b, binfo) ∈ candidates_of
            [("baker", ⟨"bakes fresh bread rolls", "ProviderAgent", "provider"⟩),
             ("scout", ⟨"explores maps", "ExplorerAgent", "generic"⟩)] "coordinator" false none →
          (score_text_overlap "please order bread rolls" (persona_of binfo)
              < score_text_overlap "please order bread rolls" (persona_of info)
            ∨ (score_text_overlap "please order bread rolls" (persona_of info)
                = score_text_overlap "please order bread rolls" (persona_of binfo)
              ∧ strLe "baker" b = true)) :=
  ⟨rfl,
   (capability_router_best
     [("baker", ⟨"bakes fresh bread rolls", "ProviderAgent", "provider"⟩),
      ("scout", ⟨"explores maps", "ExplorerAgent", "generic"⟩)]
     "coordinator" false none "please order bread rolls").2.2 "baker" rfl⟩

/-- Function `make_reply` from `common/fipa.py` on the call shape used by the
coordinator (no explicit text, reply-by, protocol/ontology/language
overrides, `strict_transition=False`): validate the performative, keep the
incoming conversation id and defaulted tags. -/
def make_reply (incoming : AclMessage) (performative : String)
    (payload : List (String × Json)) : Except String AclMessage :=
  let perf_up := pyUpper performative
  if perf_up ∈ ALLOWED_PERFORMATIVES then
    Except.ok
      { performative := perf_up
        conversation_id := incoming.conversation_id
        protocol := pyOrStr incoming.protocol "fipa-request"
        ontology := pyOrStr incoming.ontology "office.demo"
        language := pyOrStr incoming.language "json"
        reply_by := none
        sender := none
        receiver := none
        payload := payload }
  else Except.error ("unsupported performative " ++ performative)

/-- First truthy JSON value, or nothing. -/
def jsonTruthyOpt : Option Json → Option Json
  | some v => if jsonTruthy v then some v else none
  | none => none

/-- The coordinator's `user_text`:
`str(payload.get("text") or payload.get("user_text") or "")`. -/
def coordinator_user_text (payload : List (String × Json)) : String :=
  match jsonTruthyOpt (dictGet payload "text") with
  | some v => pyStrOptJson (some v)
  | none =>
    match jsonTruthyOpt (dictGet payload "user_text") with
    | some w => pyStrOptJson (some w)
    | none => ""

/-- Coordinator branch of `BaseACLAgent.handle_acl` (`common/base.py`),
as a step function on the Pending-Reply Map.  `route_jid` abstracts
`resolve(choose_agent_by_character(...) or "provider")`, which depends on the
process registry and environment.  The result pairs the updated map with the
ordered sends `(to_jid, message)`; a `make_reply` error is the exception
propagating with the sends made so far (none follow it). -/
def coordinatorStep (pending : List (String × String)) (acl : AclMessage)
    (sender_jid : String) (route_jid : String) :
    List (String × String) × List (String × AclMessage) :=
  let perf := pyUpper acl.performative
  let cid := acl.conversation_id
  if perf = "REQUEST" then
    let pending1 := if cid ≠ "" then dictSet pending cid sender_jid else pending
    match make_reply acl "AGREE" [("text", Json.str "przyjęto do realizacji")] with
    | Except.error _ => (pending1, [])
    | Except.ok agree =>
      let down_payload :=
        if acl.payload.isEmpty
        then [("text", Json.str (coordinator_user_text acl.payload))]
        else acl.payload
      match make_reply acl "REQUEST" down_payload with
      | Except.error _ => (pending1, [(sender_jid, agree)])
      | Except.ok down_req => (pending1, [(sender_jid, agree), (route_jid, down_req)])
  else if perf = "INFORM" ∨ perf = "FAILURE" ∨ perf = "REFUSE" then
    let reply_to := pyOrOptStr (dictGet pending cid) sender_jid
    match make_reply acl perf acl.payload with
    | Except.error _ => (pending, [])
    | Except.ok fwd => (dictPop pending cid, [(reply_to, fwd)])
  else (pending, [])

/-- Helper: looking up a freshly set key. -/
theorem dictGet_dictSet_self {α : Type} (l : List (String × α)) (k : String) (v : α) :
    dictGet (dictSet l k v) k = some v := by
  induction l with
  | nil => simp [dictSet, dictGet]
  | cons kv t ih =>
    obtain ⟨k1, v1⟩ := kv
    by_cases h : k1 = k
    · simp [dictSet, dictGet, h]
    · simp [dictSet, dictGet, h, ih]

/-- Helper: looking up a popped key. -/
theorem dictGet_dictPop_self {α : Type} (l : List (String × α)) (k : String) :
    dictGet (dictPop l k) k = none := by
  induction l with
  | nil => simp [dictPop, dictGet]
  | cons kv t ih =>
    obtain ⟨k1, v1⟩ := kv
    by_cases h : k1 = k
    · simpa [dictPop, List.filter, h] using ih
    · simp only [dictPop, ne_eq, decide_not] at ih ⊢
      rw [List.filter_cons]
      simp [h, dictGet, ih]

/-- C7: a coordinator receiving a REQUEST sends AGREE back to the initiator
and forwards a REQUEST to the routed provider (both tagged with the incoming
conversation id) while recording the initiator in the Pending-Reply Map; on
a later terminal performative (INFORM, FAILURE or REFUSE) for that
conversation id it relays exactly one message, to the recorded initiator,
with the terminal performative and the same conversation id, and the
Pending-Reply Map entry for the id is removed. -/
theorem coordinator_pending_lifecycle
    (pending : List (String × String)) (req term : AclMessage)
    (initiator provider route_jid : String)
    (hreq : req.performative = "REQUEST")
    (hcid : req.conversation_id ≠ "")
    (hterm : term.performative = "INFORM" ∨ term.performative = "FAILURE"
             ∨ term.performative = "REFUSE")
    (hsame : term.conversation_id = req.conversation_id)
    (hinit : initiator ≠ "") :
    ((coordinatorStep pending req initiator route_jid).2.map Prod.fst
        = [initiator, route_jid]
      ∧ (coordinatorStep pending req initiator route_jid).2.map
          (fun s => s.2.performative) = ["AGREE", "REQUEST"]
      ∧ ∀ s ∈ (coordinatorStep pending req initiator route_jid).2,
          s.2.conversation_id = req.conversation_id)
    ∧ dictGet (coordinatorStep pending req initiator route_jid).1
        req.conversation_id = some initiator
    ∧ ((coordinatorStep (coordinatorStep pending req initiator route_jid).1 term
          provider route_jid).2.map Prod.fst = [initiator]
      ∧ (coordinatorStep (coordinatorStep pending req initiator route_jid).1 term
          provider route_jid).2.map (fun s => s.2.performative)
            = [term.performative]
      ∧ ∀ s ∈ (coordinatorStep (coordinatorStep pending req initiator route_jid).1
          term provider route_jid).2,
          s.2.conversation_id = req.conversation_id)
    ∧ dictGet (coordinatorStep (coordinatorStep pending req initiator route_jid).1
        term provider route_jid).1 req.conversation_id = none := by
  obtain ⟨p1, c1, pr1, on1, la1, rb1, sn1, rc1, pl1⟩ := req
  obtain ⟨q1, c2, pr2, on2, la2, rb2, sn2, rc2, pl2⟩ := term
  simp only [] at hreq hcid hterm hsame
  subst hreq
  subst hsame
  have egetset := dictGet_dictSet_self pending c2 initiator
  have epop := dictGet_dictPop_self (dictSet pending c2 initiator) c2
  rcases hterm with h | h | h <;> subst h <;> by_cases hpl : pl1.isEmpty <;>
    simp [coordinatorStep, make_reply, ALLOWED_PERFORMATIVES, hcid, hpl,
      egetset, epop, pyOrOptStr, hinit,
      (show pyUpper "REQUEST" = "REQUEST" from rfl),
      (show pyUpper "AGREE" = "AGREE" from rfl),
      (show pyUpper "INFORM" = "INFORM" from rfl),
      (show pyUpper "FAILURE" = "FAILURE" from rfl),
      (show pyUpper "REFUSE" = "REFUSE" from rfl)]

/-- Witness for C7: Scenario C on conversation id "conv-1" with an empty
initial Pending-Reply Map. -/
theorem coordinator_pending_lifecycle_witness :
    ((coordinatorStep [] ⟨"REQUEST", "conv-1", "fipa-request", "office.demo", "json", none, none, none, [("text", Json.str "please 6 rolls")]⟩ "human@x" "provider@x").2.map Prod.fst = ["human@x", "provider@x"]
      ∧ (coordinatorStep [] ⟨"REQUEST", "conv-1", "fipa-request", "office.demo", "json", none, none, none, [("text", Json.str "please 6 rolls")]⟩ "human@x" "provider@x").2.map (fun s => s.2.performative) = ["AGREE", "REQUEST"]
      ∧ ∀ s ∈ (coordinatorStep [] ⟨"REQUEST", "conv-1", "fipa-request", "office.demo", "json", none, none, none, [("text", Json.str "please 6 rolls")]⟩ "human@x" "provider@x").2, s.2.conversation_id = "conv-1")
    ∧ dictGet (coordinatorStep [] ⟨"REQUEST", "conv-1", "fipa-request", "office.demo", "json", none, none, none, [("text", Json.str "please 6 rolls")]⟩ "human@x" "provider@x").1 "conv-1" = some "human@x"
    ∧ ((coordinatorStep (coordinatorStep [] ⟨"REQUEST", "conv-1", "fipa-request", "office.demo", "json", none, none, none, [("text", Json.str "please 6 rolls")]⟩ "human@x" "provider@x").1 ⟨"INFORM", "conv-1", "fipa-request", "office.demo", "json", none, none, none, [("text", Json.str "done")]⟩ "provider@x" "provider@x").2.map Prod.fst = ["human@x"]
      ∧ (coordinatorStep (coordinatorStep [] ⟨"REQUEST", "conv-1", "fipa-request", "office.demo", "json", none, none, none, [("text", Json.str "please 6 rolls")]⟩ "human@x" "provider@x").1 ⟨"INFORM", "conv-1", "fipa-request", "office.demo", "json", none, none, none, [("text", Json.str "done")]⟩ "provider@x" "provider@x").2.map (fun s => s.2.performative) = ["INFORM"]
      ∧ ∀ s ∈ (coordinatorStep (coordinatorStep [] ⟨"REQUEST", "conv-1", "fipa-request", "office.demo", "json", none, none, none, [("text", Json.str "please 6 rolls")]⟩ "human@x" "provider@x").1 ⟨"INFORM", "conv-1", "fipa-request", "office.demo", "json", none, none, none, [("text", Json.str "done")]⟩ "provider@x" "provider@x").2, s.2.conversation_id = "conv-1")
    ∧ dictGet (coordinatorStep (coordinatorStep [] ⟨"REQUEST", "conv-1", "fipa-request", "office.demo", "json", none, none, none, [("text", Json.str "please 6 rolls")]⟩ "human@x" "provider@x").1 ⟨"INFORM", "conv-1", "fipa-request", "office.demo", "json", none, none, none, [("text", Json.str "done")]⟩ "provider@x" "provider@x").1 "conv-1" = none :=
  coordinator_pending_lifecycle [] ⟨"REQUEST", "conv-1", "fipa-request", "office.demo", "json", none, none, none, [("text", Json.str "please 6 rolls")]⟩ ⟨"INFORM", "conv-1", "fipa-request", "office.demo", "json", none, none, none, [("text", Json.str "done")]⟩ "human@x" "provider@x" "provider@x"
    rfl (by decide) (Or.inl rfl) rfl (by decide)

/-- Counterexample to C5 as stated: the code scores candidates against the
character persona and the agent class name, not the role tag the claim
names.  On a registry where only the role field matches the need text, the
code scores that candidate 0 while the claim's scoring gives 1, and the
chosen alias differs from the one the claim's table predicts. -/
theorem router_scores_class_not_role :
    score_text_overlap "coordinator"
      (persona_of ⟨"", "Nothing", "coordinator"⟩) = 0
    ∧ score_text_overlap "coordinator"
      (persona_spec ⟨"", "Nothing", "coordinator"⟩) = 1
    ∧ choose_agent_by_character
        [("xrole", ⟨"", "Nothing", "coordinator"⟩),
         ("zzz", ⟨"coordinator", "Nothing", "generic"⟩)]
        "me" false none "coordinator" = some "zzz"
    ∧ choose_agent_by_character_spec
        [("xrole", ⟨"", "Nothing", "coordinator"⟩),
         ("zzz", ⟨"coordinator", "Nothing", "generic"⟩)]
        "me" false none "coordinator" = some "xrole"
    ∧ ("zzz" : String) ≠ "xrole" := by
  refine ⟨rfl, rfl, rfl, rfl, by decide⟩
